import Mathlib

/-!
Verification development for the Compound Growth Toolkit.

The projection engine lives in `src/lib/calc.ts`; its data model in
`src/types/index.ts`.  The engine is a pure month-by-month simulation over
IEEE doubles; here it is embedded over the real numbers (`Math.pow` on a
non-negative base becomes `Real.rpow`), so every identity proved below is the
exact real-arithmetic counterpart of the floating-point program.

The validation layer (`parseAndValidate` in `src/lib/calc.ts`) works on form
strings; the outcome of JavaScript numeric parsing is abstracted by the
`JSNum` type (empty input, NaN, infinities, or a finite double, embedded as a
rational), and the validator itself is translated branch for branch.
-/

namespace CompoundToolkit

/-- Compounding convention for the nominal APR (`src/types/index.ts`). -/
inductive CompoundFrequency
  | daily | monthly | quarterly | annual
deriving DecidableEq

/-- Contribution schedule (`src/types/index.ts`). -/
inductive ContributionFrequency
  | weekly | monthly | annual
deriving DecidableEq

/-- Contribution timing; `endT` embeds the source value `'end'`. -/
inductive ContributionTiming
  | start | endT
deriving DecidableEq

/-- Validated engine inputs (`CalcInputs` in `src/types/index.ts`).  The
validation layer guarantees `years` and `months` are non-negative integers,
embedded here as naturals. -/
structure CalcInputs where
  principal : ℝ
  contribution : ℝ
  contributionFrequency : ContributionFrequency
  apr : ℝ
  compoundFrequency : CompoundFrequency
  years : ℕ
  months : ℕ
  timing : ContributionTiming

/-- Source expression `years * 12 + additionalMonths` from `calculate` (calc.ts line 95). -/
def CalcInputs.totalMonths (inputs : CalcInputs) : ℕ :=
  inputs.years * 12 + inputs.months

/-- One monthly ledger row (`MonthlyBreakdown` in `src/types/index.ts`). -/
structure MonthlyBreakdown where
  period : ℕ
  year : ℕ
  month : ℕ
  startingBalance : ℝ
  contributions : ℝ
  interest : ℝ
  endingBalance : ℝ
  cumulativeContributions : ℝ
  cumulativeInterest : ℝ

/-- One yearly ledger row (`YearlyBreakdown` in `src/types/index.ts`). -/
structure YearlyBreakdown where
  year : ℕ
  startingBalance : ℝ
  contributions : ℝ
  interest : ℝ
  endingBalance : ℝ
  cumulativeContributions : ℝ
  cumulativeInterest : ℝ

/-- Engine result (`CalcResult` in `src/types/index.ts`). -/
structure CalcResult where
  finalBalance : ℝ
  totalContributions : ℝ
  totalInterest : ℝ
  yearlyBreakdown : List YearlyBreakdown
  monthlyBreakdown : List MonthlyBreakdown

/-- Source function `effectiveMonthlyRate` (calc.ts lines 37-49): the `if (apr === 0)` guard
returns 0 before any power is computed; the four conventions are the closed
forms from the source, with `Math.pow` embedded as real exponentiation. -/
noncomputable def effectiveMonthlyRate (apr : ℝ) (compound : CompoundFrequency) : ℝ :=
  if apr = 0 then 0
  else
    match compound with
    | .daily => (1 + apr / 365) ^ ((365 : ℝ) / 12) - 1
    | .monthly => apr / 12
    | .quarterly => (1 + apr / 4) ^ ((1 : ℝ) / 3) - 1
    | .annual => (1 + apr) ^ ((1 : ℝ) / 12) - 1

/-- Source function `effectiveMonthlyContribution` (calc.ts lines 58-70). -/
noncomputable def effectiveMonthlyContribution (contribution : ℝ)
    (frequency : ContributionFrequency) : ℝ :=
  match frequency with
  | .weekly => contribution * 52 / 12
  | .monthly => contribution
  | .annual => contribution / 12

/-- The three mutable loop variables of `calculate` (calc.ts lines 100-102):
`balance`, `cumulativeContributions`, `cumulativeInterest`. -/
structure SimState where
  balance : ℝ
  cumulativeContributions : ℝ
  cumulativeInterest : ℝ

/-- What one loop iteration (calc.ts lines 109-121) does to `balance`,
together with the period amounts it records. -/
structure MonthEffect where
  newBalance : ℝ
  periodContrib : ℝ
  periodInterest : ℝ

/-- One month of the simulation loop (calc.ts lines 109-121).
`'start'`: the contribution is added first, interest is computed on the
post-contribution balance and then added.  `'end'`: interest is computed on
the pre-contribution balance and added, then the contribution is added. -/
def monthStep (monthlyContrib monthlyRate : ℝ) (timing : ContributionTiming)
    (balance : ℝ) : MonthEffect :=
  match timing with
  | .start =>
    let afterContrib := balance + monthlyContrib
    let periodInterest := afterContrib * monthlyRate
    ⟨afterContrib + periodInterest, monthlyContrib, periodInterest⟩
  | .endT =>
    let periodInterest := balance * monthlyRate
    ⟨balance + periodInterest + monthlyContrib, monthlyContrib, periodInterest⟩

/-- Advance the three loop variables by one month (calc.ts lines 109-124). -/
def nextState (c r : ℝ) (t : ContributionTiming) (s : SimState) : SimState :=
  let e := monthStep c r t s.balance
  ⟨e.newBalance, s.cumulativeContributions + e.periodContrib,
    s.cumulativeInterest + e.periodInterest⟩

/-- Run `n` iterations of the loop on the mutable state. -/
def stepIter (c r : ℝ) (t : ContributionTiming) : ℕ → SimState → SimState
  | 0, s => s
  | n + 1, s => stepIter c r t n (nextState c r t s)

/-- The row pushed for month `m` (calc.ts lines 126-136); `Math.ceil (m / 12)`
is `(m + 11) / 12` on naturals and `((m - 1) % 12) + 1` is literal. -/
def mkRow (c r : ℝ) (t : ContributionTiming) (m : ℕ) (s : SimState) :
    MonthlyBreakdown :=
  let e := monthStep c r t s.balance
  { period := m
    year := (m + 11) / 12
    month := (m - 1) % 12 + 1
    startingBalance := s.balance
    contributions := e.periodContrib
    interest := e.periodInterest
    endingBalance := e.newBalance
    cumulativeContributions := s.cumulativeContributions + e.periodContrib
    cumulativeInterest := s.cumulativeInterest + e.periodInterest }

/-- The rows pushed by the loop for months `m, m+1, ...` (`n` of them),
starting from state `s` (calc.ts lines 104-137). -/
def simRows (c r : ℝ) (t : ContributionTiming) :
    ℕ → ℕ → SimState → List MonthlyBreakdown
  | 0, _, _ => []
  | n + 1, m, s => mkRow c r t m s :: simRows c r t n (m + 1) (nextState c r t s)

/-- Yearly aggregation (calc.ts lines 140-158): for each `y` in
`1..maxYear` (the last monthly row's `year`, 0 when there are no rows),
filter that year's rows, skip the year if empty, and read starting balance
from the first row, sums over the partition, and ending/cumulative values
from the last row. -/
def aggregateYears (monthly : List MonthlyBreakdown) : List YearlyBreakdown :=
  let maxYear := match monthly.getLast? with
    | some row => row.year
    | none => 0
  (List.range maxYear).filterMap fun i =>
    match monthly.filter (fun row => row.year == i + 1) with
    | [] => none
    | a :: tl =>
      let last := (a :: tl).getLast (List.cons_ne_nil a tl)
      some { year := i + 1
             startingBalance := a.startingBalance
             contributions := ((a :: tl).map MonthlyBreakdown.contributions).sum
             interest := ((a :: tl).map MonthlyBreakdown.interest).sum
             endingBalance := last.endingBalance
             cumulativeContributions := last.cumulativeContributions
             cumulativeInterest := last.cumulativeInterest }

/-- The engine entry point `calculate` (calc.ts lines 83-167). -/
noncomputable def calculate (inputs : CalcInputs) : CalcResult :=
  let totalMonths := inputs.totalMonths
  let monthlyRate := effectiveMonthlyRate inputs.apr inputs.compoundFrequency
  let monthlyContrib :=
    effectiveMonthlyContribution inputs.contribution inputs.contributionFrequency
  let finalState :=
    stepIter monthlyContrib monthlyRate inputs.timing totalMonths
      ⟨inputs.principal, 0, 0⟩
  let monthlyBreakdown :=
    simRows monthlyContrib monthlyRate inputs.timing totalMonths 1
      ⟨inputs.principal, 0, 0⟩
  { finalBalance := finalState.balance
    totalContributions := finalState.cumulativeContributions
    totalInterest := finalState.cumulativeInterest
    yearlyBreakdown := aggregateYears monthlyBreakdown
    monthlyBreakdown := monthlyBreakdown }

/-! ### Basic facts about the loop state -/

theorem stepIter_succ' (c r : ℝ) (t : ContributionTiming) (n : ℕ) (s : SimState) :
    stepIter c r t (n + 1) s = nextState c r t (stepIter c r t n s) := by
  induction n generalizing s with
  | zero => rfl
  | succ k ih =>
    show stepIter c r t (k + 1) (nextState c r t s) = _
    rw [ih]
    rfl

/-- The loop preserves `balance - cumulativeContributions - cumulativeInterest`:
both timing branches add exactly `periodContrib + periodInterest` to the
balance while accumulating the same two amounts. -/
theorem stepIter_invariant (c r : ℝ) (t : ContributionTiming) (n : ℕ) (s : SimState) :
    (stepIter c r t n s).balance - (stepIter c r t n s).cumulativeContributions -
      (stepIter c r t n s).cumulativeInterest =
    s.balance - s.cumulativeContributions - s.cumulativeInterest := by
  induction n generalizing s with
  | zero => rfl
  | succ k ih =>
    simp only [stepIter]
    rw [ih]
    cases t <;> simp [nextState, monthStep] <;> ring

/-- Closed form of the loop: row `i` (0-based) is the row for month `m + i`,
built from the state after `i` iterations. -/
theorem simRows_eq_map (c r : ℝ) (t : ContributionTiming) :
    ∀ (n m : ℕ) (s : SimState),
      simRows c r t n m s =
        (List.range n).map (fun i => mkRow c r t (m + i) (stepIter c r t i s)) := by
  intro n
  induction n with
  | zero => intro m s; simp [simRows]
  | succ k ih =>
    intro m s
    rw [simRows, ih (m + 1) (nextState c r t s)]
    rw [List.range_succ_eq_map, List.map_cons, List.map_map]
    refine congrArg₂ List.cons ?_ ?_
    · simp [stepIter]
    · refine List.map_congr_left ?_
      intro i _
      simp only [Function.comp_apply, stepIter]
      congr 1
      omega

theorem calculate_monthlyBreakdown_length (inputs : CalcInputs) :
    (calculate inputs).monthlyBreakdown.length = inputs.totalMonths := by
  simp [calculate, simRows_eq_map]

theorem calculate_monthlyBreakdown_get (inputs : CalcInputs) (i : ℕ)
    (h : i < (calculate inputs).monthlyBreakdown.length) :
    (calculate inputs).monthlyBreakdown.get ⟨i, h⟩ =
      mkRow (effectiveMonthlyContribution inputs.contribution inputs.contributionFrequency)
        (effectiveMonthlyRate inputs.apr inputs.compoundFrequency) inputs.timing (1 + i)
        (stepIter
          (effectiveMonthlyContribution inputs.contribution inputs.contributionFrequency)
          (effectiveMonthlyRate inputs.apr inputs.compoundFrequency) inputs.timing i
          ⟨inputs.principal, 0, 0⟩) := by
  have h' : i < inputs.totalMonths := by
    simpa [calculate_monthlyBreakdown_length] using h
  simp only [calculate, List.get_eq_getElem]
  simp only [simRows_eq_map, List.getElem_map, List.getElem_range]

/-- C1: for every `CalcInputs` with `totalMonths ≥ 1`, the result of
`calculate` satisfies the accounting identity
`finalBalance = principal + totalContributions + totalInterest` exactly in
real arithmetic. -/
theorem calculate_accounting_identity (inputs : CalcInputs)
    (h : 1 ≤ inputs.totalMonths) :
    (calculate inputs).finalBalance =
      inputs.principal + (calculate inputs).totalContributions +
        (calculate inputs).totalInterest := by
  have key := stepIter_invariant
    (effectiveMonthlyContribution inputs.contribution inputs.contributionFrequency)
    (effectiveMonthlyRate inputs.apr inputs.compoundFrequency)
    inputs.timing inputs.totalMonths ⟨inputs.principal, 0, 0⟩
  simp only [calculate]
  simp at key
  linarith

/-- Concrete instance of C1. -/
theorem calculate_accounting_identity_witness :
    1 ≤ (CalcInputs.mk 1000 100 .monthly 1 .monthly 1 0 .endT).totalMonths ∧
    (calculate (CalcInputs.mk 1000 100 .monthly 1 .monthly 1 0 .endT)).finalBalance =
      (CalcInputs.mk 1000 100 .monthly 1 .monthly 1 0 .endT).principal +
        (calculate (CalcInputs.mk 1000 100 .monthly 1 .monthly 1 0 .endT)).totalContributions +
        (calculate (CalcInputs.mk 1000 100 .monthly 1 .monthly 1 0 .endT)).totalInterest :=
  ⟨by decide, calculate_accounting_identity _ (by decide)⟩

/-- Cumulative contributions after `k` iterations are the initial value plus
the per-month contributions recorded along the way. -/
theorem stepIter_cumC_eq_sum (c r : ℝ) (t : ContributionTiming) (s : SimState) :
    ∀ k, (stepIter c r t k s).cumulativeContributions =
      s.cumulativeContributions +
        ((List.range k).map
          (fun i => (monthStep c r t (stepIter c r t i s).balance).periodContrib)).sum := by
  intro k
  induction k with
  | zero => simp [stepIter]
  | succ n ih =>
    rw [stepIter_succ', List.range_succ, List.map_append, List.sum_append]
    simp only [nextState, List.map_cons, List.map_nil, List.sum_cons, List.sum_nil]
    rw [ih]
    ring

/-- Cumulative interest after `k` iterations, likewise. -/
theorem stepIter_cumI_eq_sum (c r : ℝ) (t : ContributionTiming) (s : SimState) :
    ∀ k, (stepIter c r t k s).cumulativeInterest =
      s.cumulativeInterest +
        ((List.range k).map
          (fun i => (monthStep c r t (stepIter c r t i s).balance).periodInterest)).sum := by
  intro k
  induction k with
  | zero => simp [stepIter]
  | succ n ih =>
    rw [stepIter_succ', List.range_succ, List.map_append, List.sum_append]
    simp only [nextState, List.map_cons, List.map_nil, List.sum_cons, List.sum_nil]
    rw [ih]
    ring

theorem calculate_take_map_sum (inputs : CalcInputs) (g : MonthlyBreakdown → ℝ)
    (k : ℕ) (hk : k ≤ inputs.totalMonths) :
    (((calculate inputs).monthlyBreakdown.take k).map g).sum =
      ((List.range k).map (fun i =>
        g (mkRow
          (effectiveMonthlyContribution inputs.contribution inputs.contributionFrequency)
          (effectiveMonthlyRate inputs.apr inputs.compoundFrequency) inputs.timing (1 + i)
          (stepIter
            (effectiveMonthlyContribution inputs.contribution inputs.contributionFrequency)
            (effectiveMonthlyRate inputs.apr inputs.compoundFrequency) inputs.timing i
            ⟨inputs.principal, 0, 0⟩)))).sum := by
  simp only [calculate]
  rw [simRows_eq_map, ← List.map_take, List.take_range, min_eq_left hk, List.map_map]
  rfl

theorem mkRow_endingBalance (c r : ℝ) (t : ContributionTiming) (m : ℕ)
    (s : SimState) :
    (mkRow c r t m s).endingBalance = (nextState c r t s).balance := rfl

/-- A concrete sample input record used by the witness theorems. -/
noncomputable def sampleInputs : CalcInputs :=
  CalcInputs.mk 1000 100 .monthly 1 .monthly 1 0 .endT

theorem sample_monthly_length_pos :
    0 < (calculate sampleInputs).monthlyBreakdown.length := by
  rw [calculate_monthlyBreakdown_length]; decide

/-- C4: every month of the simulation follows the spec's recurrence.  With
`timing = start` the contribution is `monthlyContrib`, the interest equals
(post-contribution balance) × monthlyRate; with `timing = end` the interest
equals (pre-contribution balance) × monthlyRate; in both cases the row's
`endingBalance` is its `startingBalance` plus both effects. -/
theorem monthly_recurrence (inputs : CalcInputs) (i : ℕ)
    (h : i < (calculate inputs).monthlyBreakdown.length) :
    ((calculate inputs).monthlyBreakdown.get ⟨i, h⟩).contributions =
        effectiveMonthlyContribution inputs.contribution inputs.contributionFrequency
    ∧ (inputs.timing = .start →
        ((calculate inputs).monthlyBreakdown.get ⟨i, h⟩).interest =
          (((calculate inputs).monthlyBreakdown.get ⟨i, h⟩).startingBalance +
              effectiveMonthlyContribution inputs.contribution inputs.contributionFrequency) *
            effectiveMonthlyRate inputs.apr inputs.compoundFrequency)
    ∧ (inputs.timing = .endT →
        ((calculate inputs).monthlyBreakdown.get ⟨i, h⟩).interest =
          ((calculate inputs).monthlyBreakdown.get ⟨i, h⟩).startingBalance *
            effectiveMonthlyRate inputs.apr inputs.compoundFrequency)
    ∧ ((calculate inputs).monthlyBreakdown.get ⟨i, h⟩).endingBalance =
        ((calculate inputs).monthlyBreakdown.get ⟨i, h⟩).startingBalance +
          ((calculate inputs).monthlyBreakdown.get ⟨i, h⟩).contributions +
          ((calculate inputs).monthlyBreakdown.get ⟨i, h⟩).interest := by
  rw [calculate_monthlyBreakdown_get]
  refine ⟨?_, ?_, ?_, ?_⟩
  · cases inputs.timing <;> rfl
  · intro ht; rw [ht]; simp [mkRow, monthStep]
  · intro ht; rw [ht]; simp [mkRow, monthStep]
  · cases inputs.timing <;> simp [mkRow, monthStep] <;> ring

/-- Concrete instance of C4. -/
theorem monthly_recurrence_witness :
    ((calculate sampleInputs).monthlyBreakdown.get
        ⟨0, sample_monthly_length_pos⟩).contributions =
      effectiveMonthlyContribution sampleInputs.contribution
        sampleInputs.contributionFrequency :=
  (monthly_recurrence sampleInputs 0 sample_monthly_length_pos).1

/-- C10: internal consistency of the monthly ledger: the first row starts at
`principal`; consecutive rows chain ending to starting balance; each row adds
up exactly; the cumulative columns are the running sums of the per-row
columns; and the last row's ending balance is the returned `finalBalance`. -/
theorem monthly_ledger_consistency (inputs : CalcInputs)
    (hn : 1 ≤ inputs.totalMonths) :
    (∀ h0 : 0 < (calculate inputs).monthlyBreakdown.length,
      ((calculate inputs).monthlyBreakdown.get ⟨0, h0⟩).startingBalance =
        inputs.principal)
    ∧ (∀ i (h : i + 1 < (calculate inputs).monthlyBreakdown.length),
      ((calculate inputs).monthlyBreakdown.get ⟨i + 1, h⟩).startingBalance =
        ((calculate inputs).monthlyBreakdown.get
          ⟨i, Nat.lt_of_succ_lt h⟩).endingBalance)
    ∧ (∀ i (h : i < (calculate inputs).monthlyBreakdown.length),
      ((calculate inputs).monthlyBreakdown.get ⟨i, h⟩).endingBalance =
        ((calculate inputs).monthlyBreakdown.get ⟨i, h⟩).startingBalance +
          ((calculate inputs).monthlyBreakdown.get ⟨i, h⟩).contributions +
          ((calculate inputs).monthlyBreakdown.get ⟨i, h⟩).interest)
    ∧ (∀ i (h : i < (calculate inputs).monthlyBreakdown.length),
      ((calculate inputs).monthlyBreakdown.get ⟨i, h⟩).cumulativeContributions =
          (((calculate inputs).monthlyBreakdown.take (i + 1)).map
            MonthlyBreakdown.contributions).sum
        ∧ ((calculate inputs).monthlyBreakdown.get ⟨i, h⟩).cumulativeInterest =
          (((calculate inputs).monthlyBreakdown.take (i + 1)).map
            MonthlyBreakdown.interest).sum)
    ∧ (∀ hne : (calculate inputs).monthlyBreakdown ≠ [],
      ((calculate inputs).monthlyBreakdown.getLast hne).endingBalance =
        (calculate inputs).finalBalance) := by
  refine ⟨?_, ?_, ?_, ?_, ?_⟩
  · intro h0
    rw [calculate_monthlyBreakdown_get]
    simp [mkRow, stepIter]
  · intro i h
    rw [calculate_monthlyBreakdown_get, calculate_monthlyBreakdown_get]
    show (stepIter _ _ _ (i + 1) _).balance = _
    rw [stepIter_succ']
    simp [mkRow, nextState]
  · intro i h
    rw [calculate_monthlyBreakdown_get]
    cases inputs.timing <;> simp [mkRow, monthStep] <;> ring
  · intro i h
    have hi : i < inputs.totalMonths := by
      simpa [calculate_monthlyBreakdown_length] using h
    rw [calculate_monthlyBreakdown_get,
      calculate_take_map_sum inputs MonthlyBreakdown.contributions (i + 1) hi,
      calculate_take_map_sum inputs MonthlyBreakdown.interest (i + 1) hi]
    constructor
    · have := stepIter_cumC_eq_sum
        (effectiveMonthlyContribution inputs.contribution inputs.contributionFrequency)
        (effectiveMonthlyRate inputs.apr inputs.compoundFrequency) inputs.timing
        ⟨inputs.principal, 0, 0⟩ (i + 1)
      rw [stepIter_succ'] at this
      simp only [nextState] at this
      simp only [mkRow]
      simpa using this
    · have := stepIter_cumI_eq_sum
        (effectiveMonthlyContribution inputs.contribution inputs.contributionFrequency)
        (effectiveMonthlyRate inputs.apr inputs.compoundFrequency) inputs.timing
        ⟨inputs.principal, 0, 0⟩ (i + 1)
      rw [stepIter_succ'] at this
      simp only [nextState] at this
      simp only [mkRow]
      simpa using this
  · intro hne
    have hlen : (calculate inputs).monthlyBreakdown.length = inputs.totalMonths :=
      calculate_monthlyBreakdown_length inputs
    have h1 : (calculate inputs).monthlyBreakdown.length - 1 <
        (calculate inputs).monthlyBreakdown.length := by
      rw [hlen]; omega
    have hget := calculate_monthlyBreakdown_get inputs
      ((calculate inputs).monthlyBreakdown.length - 1) h1
    rw [List.get_eq_getElem] at hget
    have harg : (calculate inputs).monthlyBreakdown.length - 1 + 1 =
        inputs.totalMonths := by
      rw [hlen]; omega
    rw [List.getLast_eq_getElem, hget, mkRow_endingBalance, ← stepIter_succ', harg]
    rfl

/-- Concrete instance of C10. -/
theorem monthly_ledger_consistency_witness :
    1 ≤ sampleInputs.totalMonths ∧
    (∀ h0 : 0 < (calculate sampleInputs).monthlyBreakdown.length,
      ((calculate sampleInputs).monthlyBreakdown.get ⟨0, h0⟩).startingBalance =
        sampleInputs.principal) :=
  ⟨by decide, (monthly_ledger_consistency sampleInputs (by decide)).1⟩

theorem length_filterMap_of_isSome {α β : Type} (f : α → Option β) :
    ∀ l : List α, (∀ a ∈ l, (f a).isSome) → (l.filterMap f).length = l.length := by
  intro l
  induction l with
  | nil => intro _; rfl
  | cons a tl ih =>
    intro h
    rw [List.filterMap_cons]
    rcases hfa : f a with _ | b
    · exact absurd (h a (List.mem_cons_self a tl)) (by simp [hfa])
    · simp only [List.length_cons]
      rw [ih (fun x hx => h x (List.mem_cons_of_mem a hx))]

/-- Ceiling division: `Math.ceil (m / 12)` on a natural is `(m + 11) / 12` in natural division. -/
theorem ceil_div12_eq (m : ℕ) : ⌈(m : ℚ) / 12⌉ = (((m + 11) / 12 : ℕ) : ℤ) := by
  set z : ℕ := (m + 11) / 12 with hz
  have hz1 : m ≤ 12 * z := by omega
  have hz2 : 12 * z < m + 12 := by omega
  have hq1 : (m : ℚ) ≤ 12 * (z : ℚ) := by exact_mod_cast hz1
  have hq2 : 12 * (z : ℚ) < (m : ℚ) + 12 := by exact_mod_cast hz2
  rw [Int.ceil_eq_iff]
  constructor
  · push_cast
    rw [sub_lt_iff_lt_add]
    rw [show (m : ℚ) / 12 + 1 = ((m : ℚ) + 12) / 12 by ring]
    rw [lt_div_iff₀ (show (0 : ℚ) < 12 by norm_num)]
    linarith
  · push_cast
    rw [div_le_iff₀ (show (0 : ℚ) < 12 by norm_num)]
    linarith

/-- The yearly aggregation of `n ≥ 1` monthly rows for months `1..n` has
exactly `(n + 11) / 12` rows: the last monthly row's `year` is `(n + 11)/12`,
and every year up to it owns at least the monthly row of month `12·(y-1)+1`,
so no year is skipped. -/
theorem aggregateYears_length (c r : ℝ) (t : ContributionTiming)
    (g : ℕ → SimState) (n : ℕ) (hn : 1 ≤ n) :
    (aggregateYears ((List.range n).map
      (fun i => mkRow c r t (1 + i) (g i)))).length = (n + 11) / 12 := by
  have hlen : ((List.range n).map
      (fun i => mkRow c r t (1 + i) (g i))).length = n := by simp
  have hidx : n - 1 < ((List.range n).map
      (fun i => mkRow c r t (1 + i) (g i))).length := by
    rw [hlen]; omega
  have hlast : ((List.range n).map
      (fun i => mkRow c r t (1 + i) (g i))).getLast? =
      some (mkRow c r t (1 + (n - 1)) (g (n - 1))) := by
    rw [List.getLast?_eq_getElem?, hlen, List.getElem?_eq_getElem hidx]
    simp [List.getElem_map, List.getElem_range, hlen]
  simp only [aggregateYears, hlast]
  have hyear : (mkRow c r t (1 + (n - 1)) (g (n - 1))).year = (n + 11) / 12 := by
    simp only [mkRow]
    omega
  rw [hyear]
  rw [length_filterMap_of_isSome _ _ ?_, List.length_range]
  intro i hi
  have hi' : i < (n + 11) / 12 := List.mem_range.mp hi
  have h12 : 12 * i < n := by omega
  have hmem : mkRow c r t (1 + 12 * i) (g (12 * i)) ∈
      (List.range n).map (fun j => mkRow c r t (1 + j) (g j)) :=
    List.mem_map.mpr ⟨12 * i, List.mem_range.mpr h12, rfl⟩
  have hfil : mkRow c r t (1 + 12 * i) (g (12 * i)) ∈
      ((List.range n).map (fun j => mkRow c r t (1 + j) (g j))).filter
        (fun row => row.year == i + 1) := by
    refine List.mem_filter.mpr ⟨hmem, ?_⟩
    simp only [mkRow, beq_iff_eq]
    omega
  rcases hcase : ((List.range n).map (fun j => mkRow c r t (1 + j) (g j))).filter
      (fun row => row.year == i + 1) with _ | ⟨a, tl⟩
  · rw [hcase] at hfil
    simp at hfil
  · simp [hcase]

theorem calculate_yearlyBreakdown_length (inputs : CalcInputs)
    (hn : 1 ≤ inputs.totalMonths) :
    (calculate inputs).yearlyBreakdown.length = (inputs.totalMonths + 11) / 12 := by
  simp only [calculate]
  rw [simRows_eq_map]
  exact aggregateYears_length _ _ _ _ _ hn

/-- C8: with `totalMonths = years*12 + months ≥ 1`, `calculate` returns
exactly `totalMonths` monthly rows, numbered `period = 1..totalMonths` in
order, each with `year = ⌈period/12⌉` and `month = ((period-1) mod 12)+1`,
and exactly `⌈totalMonths/12⌉` yearly rows. -/
theorem partition_correctness (inputs : CalcInputs) (hn : 1 ≤ inputs.totalMonths) :
    (calculate inputs).monthlyBreakdown.length = inputs.totalMonths
    ∧ (∀ i (h : i < (calculate inputs).monthlyBreakdown.length),
        ((calculate inputs).monthlyBreakdown.get ⟨i, h⟩).period = i + 1
        ∧ ((((calculate inputs).monthlyBreakdown.get ⟨i, h⟩).year : ℤ)) =
            ⌈((((calculate inputs).monthlyBreakdown.get ⟨i, h⟩).period : ℚ)) / 12⌉
        ∧ ((calculate inputs).monthlyBreakdown.get ⟨i, h⟩).month =
            (((calculate inputs).monthlyBreakdown.get ⟨i, h⟩).period - 1) % 12 + 1)
    ∧ (((calculate inputs).yearlyBreakdown.length : ℤ)) =
        ⌈(inputs.totalMonths : ℚ) / 12⌉ := by
  refine ⟨calculate_monthlyBreakdown_length inputs, ?_, ?_⟩
  · intro i h
    rw [calculate_monthlyBreakdown_get]
    refine ⟨by simp only [mkRow]; omega, ?_, by simp only [mkRow]⟩
    simp only [mkRow, ceil_div12_eq]
  · rw [calculate_yearlyBreakdown_length inputs hn, ceil_div12_eq]

/-- Concrete instance of C8. -/
theorem partition_correctness_witness :
    1 ≤ sampleInputs.totalMonths ∧
    (calculate sampleInputs).monthlyBreakdown.length = sampleInputs.totalMonths :=
  ⟨by decide, (partition_correctness sampleInputs (by decide)).1⟩

/-! ### Rate conversion (C6) -/

/-- The closed forms of spec section 4.1, written exactly as the spec states
them, with no special case at `apr = 0`. -/
noncomputable def specMonthlyRate (apr : ℝ) (compound : CompoundFrequency) : ℝ :=
  match compound with
  | .annual => (1 + apr) ^ ((1 : ℝ) / 12) - 1
  | .monthly => apr / 12
  | .quarterly => (1 + apr / 4) ^ ((1 : ℝ) / 3) - 1
  | .daily => (1 + apr / 365) ^ ((365 : ℝ) / 12) - 1

theorem effectiveMonthlyRate_zero (cf : CompoundFrequency) :
    effectiveMonthlyRate 0 cf = 0 := by
  simp [effectiveMonthlyRate]

/-- C6: for every `apr ≥ 0` and every convention, `effectiveMonthlyRate`
returns exactly the spec's closed form, and at `apr = 0` it returns exactly 0
(the guard fires before any power is computed; the closed form is also 0
there in exact real arithmetic). -/
theorem effectiveMonthlyRate_matches_spec (apr : ℝ) (compound : CompoundFrequency)
    (h : 0 ≤ apr) :
    effectiveMonthlyRate apr compound = specMonthlyRate apr compound
    ∧ effectiveMonthlyRate 0 compound = 0 := by
  refine ⟨?_, effectiveMonthlyRate_zero compound⟩
  rcases eq_or_lt_of_le h with h0 | hpos
  · rw [← h0, effectiveMonthlyRate_zero]
    cases compound <;> simp [specMonthlyRate, Real.one_rpow]
  · cases compound <;> simp [effectiveMonthlyRate, specMonthlyRate, hpos.ne']

/-- Concrete instance of C6. -/
theorem effectiveMonthlyRate_matches_spec_witness :
    (0 : ℝ) ≤ 1 ∧ effectiveMonthlyRate 1 .daily = specMonthlyRate 1 .daily :=
  ⟨by norm_num, (effectiveMonthlyRate_matches_spec 1 .daily (by norm_num)).1⟩

/-! ### Zero-rate runs (C7) -/

theorem calculate_finalBalance_def (inputs : CalcInputs) :
    (calculate inputs).finalBalance =
      (stepIter
        (effectiveMonthlyContribution inputs.contribution inputs.contributionFrequency)
        (effectiveMonthlyRate inputs.apr inputs.compoundFrequency) inputs.timing
        inputs.totalMonths ⟨inputs.principal, 0, 0⟩).balance := rfl

theorem calculate_totalInterest_def (inputs : CalcInputs) :
    (calculate inputs).totalInterest =
      (stepIter
        (effectiveMonthlyContribution inputs.contribution inputs.contributionFrequency)
        (effectiveMonthlyRate inputs.apr inputs.compoundFrequency) inputs.timing
        inputs.totalMonths ⟨inputs.principal, 0, 0⟩).cumulativeInterest := rfl

/-- With a zero monthly rate, every iteration just adds the contribution and
records zero interest. -/
theorem stepIter_zero_rate (c : ℝ) (t : ContributionTiming) :
    ∀ (n : ℕ) (s : SimState),
      (stepIter c 0 t n s).balance = s.balance + n * c
      ∧ (stepIter c 0 t n s).cumulativeContributions =
          s.cumulativeContributions + n * c
      ∧ (stepIter c 0 t n s).cumulativeInterest = s.cumulativeInterest := by
  intro n
  induction n with
  | zero => intro s; simp [stepIter]
  | succ k ih =>
    intro s
    obtain ⟨h1, h2, h3⟩ := ih (nextState c 0 t s)
    simp only [stepIter]
    rw [h1, h2, h3]
    refine ⟨?_, ?_, ?_⟩ <;> cases t <;>
      simp [nextState, monthStep] <;> push_cast <;> ring

/-- With `apr = 0` the effective rate is 0 for every convention, so the run
is a pure accumulation of contributions. -/
theorem calculate_zero_apr (inputs : CalcInputs) (ha : inputs.apr = 0) :
    (calculate inputs).finalBalance =
      inputs.principal + (inputs.totalMonths : ℝ) *
        effectiveMonthlyContribution inputs.contribution inputs.contributionFrequency
    ∧ (calculate inputs).totalInterest = 0 := by
  rw [calculate_finalBalance_def, calculate_totalInterest_def, ha,
    effectiveMonthlyRate_zero]
  obtain ⟨h1, h2, h3⟩ := stepIter_zero_rate
    (effectiveMonthlyContribution inputs.contribution inputs.contributionFrequency)
    inputs.timing inputs.totalMonths ⟨inputs.principal, 0, 0⟩
  rw [h1, h3]
  exact ⟨rfl, rfl⟩

/-- C7: with `apr = 0` and `totalMonths ≥ 1`, the final balance is the same
for all four compounding conventions and both timings, equals
`principal + totalMonths · effectiveMonthlyContribution`, and the total
interest is 0. -/
theorem zero_rate_invariance (inputs : CalcInputs) (ha : inputs.apr = 0)
    (hn : 1 ≤ inputs.totalMonths) :
    (∀ cf cf' t t',
      (calculate { inputs with compoundFrequency := cf, timing := t }).finalBalance =
        (calculate { inputs with compoundFrequency := cf', timing := t' }).finalBalance)
    ∧ (calculate inputs).finalBalance =
        inputs.principal + (inputs.totalMonths : ℝ) *
          effectiveMonthlyContribution inputs.contribution inputs.contributionFrequency
    ∧ (calculate inputs).totalInterest = 0 := by
  refine ⟨?_, (calculate_zero_apr inputs ha).1, (calculate_zero_apr inputs ha).2⟩
  intro cf cf' t t'
  have h1 := (calculate_zero_apr { inputs with compoundFrequency := cf, timing := t } ha).1
  have h2 := (calculate_zero_apr { inputs with compoundFrequency := cf', timing := t' } ha).1
  rw [h1, h2]
  rfl

/-- A concrete zero-APR sample input. -/
noncomputable def sampleInputsZeroApr : CalcInputs :=
  CalcInputs.mk 1000 100 .monthly 0 .monthly 1 0 .endT

/-- Concrete instance of C7. -/
theorem zero_rate_invariance_witness :
    sampleInputsZeroApr.apr = 0 ∧ 1 ≤ sampleInputsZeroApr.totalMonths ∧
      (calculate sampleInputsZeroApr).totalInterest = 0 :=
  ⟨rfl, by decide, (zero_rate_invariance sampleInputsZeroApr rfl (by decide)).2.2⟩

/-! ### Timing ordering (C5) -/

/-- The balance component of the loop depends only on the balance component
of the starting state. -/
theorem stepIter_balance_only (c r : ℝ) (t : ContributionTiming) :
    ∀ (n : ℕ) (s s' : SimState), s.balance = s'.balance →
      (stepIter c r t n s).balance = (stepIter c r t n s').balance := by
  intro n
  induction n with
  | zero => intro s s' h; exact h
  | succ k ih =>
    intro s s' h
    simp only [stepIter]
    exact ih _ _ (by simp [nextState, h])

/-- One month's new balance is affine in the old balance. -/
theorem monthStep_newBalance_affine (c r : ℝ) (t : ContributionTiming) (b : ℝ) :
    (monthStep c r t b).newBalance = b * (1 + r) + (monthStep c r t 0).newBalance := by
  cases t <;> simp [monthStep] <;> ring

/-- The balance after `n` months is affine in the starting balance. -/
theorem stepIter_balance_affine (c r : ℝ) (t : ContributionTiming) :
    ∀ (n : ℕ) (b : ℝ),
      (stepIter c r t n ⟨b, 0, 0⟩).balance =
        b * (1 + r) ^ n + (stepIter c r t n ⟨0, 0, 0⟩).balance := by
  intro n
  induction n with
  | zero => intro b; simp [stepIter]
  | succ k ih =>
    intro b
    simp only [stepIter]
    rw [stepIter_balance_only c r t k (nextState c r t ⟨b, 0, 0⟩)
        ⟨(monthStep c r t b).newBalance, 0, 0⟩ (by simp [nextState]),
      stepIter_balance_only c r t k (nextState c r t ⟨0, 0, 0⟩)
        ⟨(monthStep c r t 0).newBalance, 0, 0⟩ (by simp [nextState]),
      ih ((monthStep c r t b).newBalance), ih ((monthStep c r t 0).newBalance),
      monthStep_newBalance_affine c r t b]
    ring

/-- Final-balance difference between the two timings, in closed form. -/
theorem timing_diff_formula (c r : ℝ) :
    ∀ (n : ℕ) (b : ℝ),
      (stepIter c r .start n ⟨b, 0, 0⟩).balance -
        (stepIter c r .endT n ⟨b, 0, 0⟩).balance = c * ((1 + r) ^ n - 1) := by
  have key : ∀ n : ℕ,
      (stepIter c r .start n ⟨0, 0, 0⟩).balance -
        (stepIter c r .endT n ⟨0, 0, 0⟩).balance = c * ((1 + r) ^ n - 1) := by
    intro n
    induction n with
    | zero => simp [stepIter]
    | succ k ih =>
      simp only [stepIter]
      rw [stepIter_balance_only c r .start k (nextState c r .start ⟨0, 0, 0⟩)
          ⟨(monthStep c r .start 0).newBalance, 0, 0⟩ (by simp [nextState]),
        stepIter_balance_only c r .endT k (nextState c r .endT ⟨0, 0, 0⟩)
          ⟨(monthStep c r .endT 0).newBalance, 0, 0⟩ (by simp [nextState]),
        stepIter_balance_affine c r .start k ((monthStep c r .start 0).newBalance),
        stepIter_balance_affine c r .endT k ((monthStep c r .endT 0).newBalance)]
      have hs : (monthStep c r .start 0).newBalance = c * (1 + r) := by
        simp [monthStep]; ring
      have he : (monthStep c r .endT 0).newBalance = c := by
        simp [monthStep]
      rw [hs, he, pow_succ]
      linear_combination ih
  intro n b
  rw [stepIter_balance_affine c r .start n b, stepIter_balance_affine c r .endT n b]
  linear_combination key n

theorem effectiveMonthlyContribution_nonneg (x : ℝ) (f : ContributionFrequency)
    (h : 0 ≤ x) : 0 ≤ effectiveMonthlyContribution x f := by
  cases f <;> simp [effectiveMonthlyContribution] <;> positivity

theorem effectiveMonthlyRate_of_ne_zero (apr : ℝ) (cf : CompoundFrequency)
    (h : apr ≠ 0) : effectiveMonthlyRate apr cf = specMonthlyRate apr cf := by
  cases cf <;> simp [effectiveMonthlyRate, specMonthlyRate, h]

theorem effectiveMonthlyRate_nonneg (apr : ℝ) (cf : CompoundFrequency)
    (h : 0 ≤ apr) : 0 ≤ effectiveMonthlyRate apr cf := by
  rcases eq_or_lt_of_le h with h0 | hpos
  · rw [← h0, effectiveMonthlyRate_zero]
  · rw [effectiveMonthlyRate_of_ne_zero apr cf hpos.ne']
    cases cf
    · have h1 : (1 : ℝ) ≤ 1 + apr / 365 := by
        have : 0 ≤ apr / 365 := by positivity
        linarith
      have h2 := Real.one_le_rpow h1 (by norm_num : (0 : ℝ) ≤ 365 / 12)
      simp only [specMonthlyRate]
      linarith
    · simp only [specMonthlyRate]
      positivity
    · have h1 : (1 : ℝ) ≤ 1 + apr / 4 := by
        have : 0 ≤ apr / 4 := by positivity
        linarith
      have h2 := Real.one_le_rpow h1 (by norm_num : (0 : ℝ) ≤ 1 / 3)
      simp only [specMonthlyRate]
      linarith
    · have h1 : (1 : ℝ) ≤ 1 + apr := by linarith
      have h2 := Real.one_le_rpow h1 (by norm_num : (0 : ℝ) ≤ 1 / 12)
      simp only [specMonthlyRate]
      linarith

/-- C5: for runs identical except for `timing`, the `start` run's final
balance is at least the `end` run's; strictly greater when the effective
monthly contribution and effective monthly rate are both positive; equal when
either is 0. -/
theorem timing_ordering (inputs : CalcInputs)
    (hc : 0 ≤ inputs.contribution) (ha : 0 ≤ inputs.apr)
    (hn : 1 ≤ inputs.totalMonths) :
    (calculate { inputs with timing := .endT }).finalBalance ≤
      (calculate { inputs with timing := .start }).finalBalance
    ∧ (0 < effectiveMonthlyContribution inputs.contribution inputs.contributionFrequency →
       0 < effectiveMonthlyRate inputs.apr inputs.compoundFrequency →
       (calculate { inputs with timing := .endT }).finalBalance <
         (calculate { inputs with timing := .start }).finalBalance)
    ∧ ((effectiveMonthlyContribution inputs.contribution inputs.contributionFrequency = 0
        ∨ effectiveMonthlyRate inputs.apr inputs.compoundFrequency = 0) →
       (calculate { inputs with timing := .start }).finalBalance =
         (calculate { inputs with timing := .endT }).finalBalance) := by
  have hS : (calculate { inputs with timing := .start }).finalBalance =
      (stepIter
        (effectiveMonthlyContribution inputs.contribution inputs.contributionFrequency)
        (effectiveMonthlyRate inputs.apr inputs.compoundFrequency) .start
        inputs.totalMonths ⟨inputs.principal, 0, 0⟩).balance := rfl
  have hE : (calculate { inputs with timing := .endT }).finalBalance =
      (stepIter
        (effectiveMonthlyContribution inputs.contribution inputs.contributionFrequency)
        (effectiveMonthlyRate inputs.apr inputs.compoundFrequency) .endT
        inputs.totalMonths ⟨inputs.principal, 0, 0⟩).balance := rfl
  have hdiff := timing_diff_formula
    (effectiveMonthlyContribution inputs.contribution inputs.contributionFrequency)
    (effectiveMonthlyRate inputs.apr inputs.compoundFrequency)
    inputs.totalMonths inputs.principal
  have hcn := effectiveMonthlyContribution_nonneg inputs.contribution
    inputs.contributionFrequency hc
  have hrn := effectiveMonthlyRate_nonneg inputs.apr inputs.compoundFrequency ha
  have hpow : (1 : ℝ) ≤
      (1 + effectiveMonthlyRate inputs.apr inputs.compoundFrequency) ^
        inputs.totalMonths :=
    one_le_pow₀ (by linarith)
  refine ⟨?_, ?_, ?_⟩
  · rw [hS, hE]
    nlinarith [hdiff, hcn, hpow]
  · intro hcp hrp
    rw [hS, hE]
    have hpow' : (1 : ℝ) <
        (1 + effectiveMonthlyRate inputs.apr inputs.compoundFrequency) ^
          inputs.totalMonths :=
      one_lt_pow₀ (by linarith) (by omega)
    nlinarith [hdiff, hcp, hpow']
  · intro hor
    rw [hS, hE]
    rcases hor with hc0 | hr0
    · have h0 : effectiveMonthlyContribution inputs.contribution
          inputs.contributionFrequency *
          ((1 + effectiveMonthlyRate inputs.apr inputs.compoundFrequency) ^
            inputs.totalMonths - 1) = 0 := by
        rw [hc0]; ring
      linarith [hdiff, h0]
    · have h0 : effectiveMonthlyContribution inputs.contribution
          inputs.contributionFrequency *
          ((1 + effectiveMonthlyRate inputs.apr inputs.compoundFrequency) ^
            inputs.totalMonths - 1) = 0 := by
        rw [hr0]; simp
      linarith [hdiff, h0]

/-- Concrete instance of C5. -/
theorem timing_ordering_witness :
    0 ≤ sampleInputs.contribution ∧ 0 ≤ sampleInputs.apr ∧
      1 ≤ sampleInputs.totalMonths ∧
      (calculate { sampleInputs with timing := .endT }).finalBalance ≤
        (calculate { sampleInputs with timing := .start }).finalBalance :=
  ⟨by norm_num [sampleInputs], by norm_num [sampleInputs], by decide,
    (timing_ordering sampleInputs (by norm_num [sampleInputs])
      (by norm_num [sampleInputs]) (by decide)).1⟩

/-! ### Real (inflation-adjusted) layer, modelled from the spec (C2) -/

/-- Real-terms values of one yearly row. -/
structure RealYearlyRow where
  realEndingBalance : ℝ
  realCumulativeContributions : ℝ
  realCumulativeInterest : ℝ

/-- Modelled from the spec: the inflation layer of spec section 4.5 is absent
from the checked-in engine source (`calc.ts` has no `inflationRate`; only the
test suite and the UI components reference the real-terms outputs).
Following the spec's words: each yearly row's ending balance, cumulative
contributions and cumulative interest are divided by the discount factor
`(1 + inflationRate) ^ t`, where `t` is the elapsed time in years at the
row's end, fractional for a partial final year: `min (12·year) totalMonths / 12`. -/
noncomputable def realYearlyRows (inflationRate : ℝ) (totalMonths : ℕ)
    (rows : List YearlyBreakdown) : List RealYearlyRow :=
  rows.map fun row =>
    let t : ℝ := ((min (12 * row.year) totalMonths : ℕ) : ℝ) / 12
    let discount : ℝ := (1 + inflationRate) ^ t
    { realEndingBalance := row.endingBalance / discount
      realCumulativeContributions := row.cumulativeContributions / discount
      realCumulativeInterest := row.cumulativeInterest / discount }

/-- Modelled from the spec: the three real scalar summaries
(`finalBalanceReal`, `totalContributionsReal`, `totalInterestReal`), each
discounted by the total horizon `t = years + months/12`. -/
noncomputable def realScalars (inflationRate : ℝ) (inputs : CalcInputs)
    (res : CalcResult) : ℝ × ℝ × ℝ :=
  let t : ℝ := (inputs.years : ℝ) + (inputs.months : ℝ) / 12
  let discount : ℝ := (1 + inflationRate) ^ t
  (res.finalBalance / discount, res.totalContributions / discount,
    res.totalInterest / discount)

/-- C2 (spec-modelled): with `inflationRate = 0` every real output equals its
nominal counterpart exactly — the discount factor is `1 ^ t = 1`. -/
theorem zero_inflation_identity (inputs : CalcInputs) (inflationRate : ℝ)
    (hi : inflationRate = 0) :
    realScalars inflationRate inputs (calculate inputs) =
      ((calculate inputs).finalBalance, (calculate inputs).totalContributions,
        (calculate inputs).totalInterest)
    ∧ realYearlyRows inflationRate inputs.totalMonths
        (calculate inputs).yearlyBreakdown =
      (calculate inputs).yearlyBreakdown.map (fun row =>
        { realEndingBalance := row.endingBalance
          realCumulativeContributions := row.cumulativeContributions
          realCumulativeInterest := row.cumulativeInterest }) := by
  subst hi
  constructor
  · simp [realScalars, Real.one_rpow]
  · simp [realYearlyRows, Real.one_rpow]

/-- Concrete instance of C2. -/
theorem zero_inflation_identity_witness :
    (0 : ℝ) = 0 ∧
      realScalars 0 sampleInputs (calculate sampleInputs) =
        ((calculate sampleInputs).finalBalance,
          (calculate sampleInputs).totalContributions,
          (calculate sampleInputs).totalInterest) :=
  ⟨rfl, (zero_inflation_identity sampleInputs 0 rfl).1⟩

/-! ### Fee (asset-based drag) layer, modelled from the spec (C3) -/

/-- One month of the fee-adjusted parallel track. -/
structure FeeMonthlyRow where
  year : ℕ
  endingBalance : ℝ
  endingBalanceAfterFees : ℝ
  feePaid : ℝ

/-- Modelled from the spec: section 4.6's fee layer is absent from the
checked-in engine source (only its tests and UI callers reference it).  Each
month the fee-adjusted balance receives contribution and interest exactly as
the nominal step of section 4.3, then a monthly fee fraction of the grown
balance is deducted.  Returns (new fee-adjusted balance, fee charged). -/
def feeMonthStep (c r feeMonthly : ℝ) (t : ContributionTiming)
    (feeBalance : ℝ) : ℝ × ℝ :=
  let grown := (monthStep c r t feeBalance).newBalance
  let fee := grown * feeMonthly
  (grown - fee, fee)

/-- Modelled from the spec: the nominal and fee-adjusted balances run as two
parallel accumulators inside the same loop; one row per month. -/
def feeSimRows (c r feeMonthly : ℝ) (t : ContributionTiming) :
    ℕ → ℕ → ℝ → ℝ → List FeeMonthlyRow
  | 0, _, _, _ => []
  | n + 1, m, bal, feeBal =>
    let newBal := (monthStep c r t bal).newBalance
    let fs := feeMonthStep c r feeMonthly t feeBal
    ⟨(m + 11) / 12, newBal, fs.1, fs.2⟩ ::
      feeSimRows c r feeMonthly t n (m + 1) newBal fs.1

/-- Per-year view of the fee track (spec section 4.6). -/
structure FeeYearlyRow where
  year : ℕ
  endingBalance : ℝ
  endingBalanceAfterFees : ℝ
  yearlyFeesPaid : ℝ

/-- Modelled from the spec: yearly aggregation of the fee track, partitioned
by `year` exactly as the nominal aggregation is. -/
def feeAggregate (monthly : List FeeMonthlyRow) : List FeeYearlyRow :=
  let maxYear := match monthly.getLast? with
    | some row => row.year
    | none => 0
  (List.range maxYear).filterMap fun i =>
    match monthly.filter (fun row => row.year == i + 1) with
    | [] => none
    | a :: tl =>
      let last := (a :: tl).getLast (List.cons_ne_nil a tl)
      some { year := i + 1
             endingBalance := last.endingBalance
             endingBalanceAfterFees := last.endingBalanceAfterFees
             yearlyFeesPaid := ((a :: tl).map FeeMonthlyRow.feePaid).sum }

/-- State evolution for the scalar fee summaries: (nominal balance,
fee-adjusted balance, cumulative fees paid). -/
def feeIter (c r feeMonthly : ℝ) (t : ContributionTiming) :
    ℕ → ℝ × ℝ × ℝ → ℝ × ℝ × ℝ
  | 0, s => s
  | n + 1, s =>
    let newBal := (monthStep c r t s.1).newBalance
    let fs := feeMonthStep c r feeMonthly t s.2.1
    feeIter c r feeMonthly t n (newBal, fs.1, s.2.2 + fs.2)

/-- Fee-extended result (spec sections 4.6-4.7). -/
structure FeeResult where
  finalBalanceAfterFees : ℝ
  totalFeesPaidNominal : ℝ
  yearlyBreakdown : List FeeYearlyRow

/-- Modelled from the spec: the engine extended with the fee layer; the
monthly fee fraction is `annualFeeRate / 12` (the simple-drag option the spec
explicitly allows in section 4.6). -/
noncomputable def calculateWithFees (inputs : CalcInputs)
    (annualFeeRate : ℝ) : FeeResult :=
  let r := effectiveMonthlyRate inputs.apr inputs.compoundFrequency
  let c := effectiveMonthlyContribution inputs.contribution inputs.contributionFrequency
  let feeMonthly := annualFeeRate / 12
  let monthly := feeSimRows c r feeMonthly inputs.timing inputs.totalMonths 1
    inputs.principal inputs.principal
  let fin := feeIter c r feeMonthly inputs.timing inputs.totalMonths
    (inputs.principal, inputs.principal, 0)
  { finalBalanceAfterFees := fin.2.1
    totalFeesPaidNominal := fin.2.2
    yearlyBreakdown := feeAggregate monthly }

/-- With a zero monthly fee fraction, the fee track coincides with the
nominal track on every monthly row, and no fee is ever charged. -/
theorem feeSimRows_zero_fee (c r : ℝ) (t : ContributionTiming) :
    ∀ (n m : ℕ) (b : ℝ) (row : FeeMonthlyRow),
      row ∈ feeSimRows c r 0 t n m b b →
      row.endingBalanceAfterFees = row.endingBalance ∧ row.feePaid = 0 := by
  intro n
  induction n with
  | zero => intro m b row h; simp [feeSimRows] at h
  | succ k ih =>
    intro m b row h
    simp only [feeSimRows] at h
    rcases List.mem_cons.mp h with hrow | hmem
    · subst hrow
      constructor <;> simp [feeMonthStep]
    · have hfs : (feeMonthStep c r 0 t b).1 = (monthStep c r t b).newBalance := by
        simp [feeMonthStep]
      rw [hfs] at hmem
      exact ih (m + 1) ((monthStep c r t b).newBalance) row hmem

theorem feeIter_zero_fee (c r : ℝ) (t : ContributionTiming) :
    ∀ (n : ℕ) (b f : ℝ), (feeIter c r 0 t n (b, b, f)).2.2 = f := by
  intro n
  induction n with
  | zero => intro b f; rfl
  | succ k ih =>
    intro b f
    simp only [feeIter, feeMonthStep]
    simpa using ih ((monthStep c r t b).newBalance) f

/-- Every yearly fee row reads both of its ending balances off the same last
monthly row, so a monthly-level identity transfers to the yearly level. -/
theorem feeAggregate_afterFees_eq (monthly : List FeeMonthlyRow)
    (hinv : ∀ row ∈ monthly, row.endingBalanceAfterFees = row.endingBalance) :
    ∀ row ∈ feeAggregate monthly,
      row.endingBalanceAfterFees = row.endingBalance := by
  intro row hrow
  simp only [feeAggregate] at hrow
  obtain ⟨i, hi, hsome⟩ := List.mem_filterMap.mp hrow
  rcases hcase : monthly.filter (fun rr => rr.year == i + 1) with _ | ⟨a, tl⟩
  · rw [hcase] at hsome; simp at hsome
  · rw [hcase] at hsome
    simp only [Option.some.injEq] at hsome
    subst hsome
    have hfil : (a :: tl).getLast (List.cons_ne_nil a tl) ∈
        monthly.filter (fun rr => rr.year == i + 1) := by
      rw [hcase]; exact List.getLast_mem _
    exact hinv _ (List.mem_filter.mp hfil).1

/-- C3 (spec-modelled): with `annualFeeRate = 0`, every yearly row of the
fee-extended result has `endingBalanceAfterFees = endingBalance`, and
`totalFeesPaidNominal = 0`. -/
theorem zero_fee_identity (inputs : CalcInputs) (annualFeeRate : ℝ)
    (hf : annualFeeRate = 0) :
    (∀ row ∈ (calculateWithFees inputs annualFeeRate).yearlyBreakdown,
      row.endingBalanceAfterFees = row.endingBalance)
    ∧ (calculateWithFees inputs annualFeeRate).totalFeesPaidNominal = 0 := by
  subst hf
  have hfm : (0 : ℝ) / 12 = 0 := by norm_num
  constructor
  · intro row hrow
    simp only [calculateWithFees, hfm] at hrow
    exact feeAggregate_afterFees_eq _
      (fun rr hm => (feeSimRows_zero_fee _ _ _ _ _ _ rr hm).1) row hrow
  · simp only [calculateWithFees, hfm]
    exact feeIter_zero_fee _ _ _ _ _ _

/-- Concrete instance of C3. -/
theorem zero_fee_identity_witness :
    (0 : ℝ) = 0 ∧ (calculateWithFees sampleInputs 0).totalFeesPaidNominal = 0 :=
  ⟨rfl, (zero_fee_identity sampleInputs 0 rfl).2⟩

/-! ### Validation layer (`parseAndValidate`, calc.ts lines 197-286) (C9)

The form fields are strings in the source; what the validator sees of each
numeric string is the outcome of JavaScript parsing (`parseFloat` for
principal/contribution/apr, `Number` for years/months).  That outcome is
abstracted by `JSNum`: empty input, NaN, an infinity, or a finite double —
and every finite double is a rational, embedded in `ℚ`. -/

/-- Outcome of JavaScript numeric parsing of one form field. -/
inductive JSNum
  | empty
  | nan
  | inf
  | ninf
  | val (q : ℚ)
deriving DecidableEq

/-- Form state as seen by the validator (`FormState` in `src/types/index.ts`,
numeric fields abstracted to their parse outcome). -/
structure FormState where
  principal : JSNum
  contribution : JSNum
  contributionFrequency : ContributionFrequency
  apr : JSNum
  compoundFrequency : CompoundFrequency
  years : JSNum
  months : JSNum
  timing : ContributionTiming
deriving DecidableEq

/-- Source type `ValidationErrors` (`src/types/index.ts`): the six keys the validator can
set; `none` means the key is absent. -/
structure ValidationErrors where
  principal : Option String := none
  contribution : Option String := none
  apr : Option String := none
  years : Option String := none
  months : Option String := none
  duration : Option String := none
deriving DecidableEq

/-- Source check `Object.keys(errors).length > 0` (calc.ts line 268). -/
def ValidationErrors.hasAny (e : ValidationErrors) : Bool :=
  e.principal.isSome || e.contribution.isSome || e.apr.isSome ||
    e.years.isSome || e.months.isSome || e.duration.isSome

/-- The validated inputs produced by `parseAndValidate` (calc.ts lines
272-285).  JavaScript numbers at this boundary are finite doubles, embedded
as rationals. -/
structure CalcInputsV where
  principal : ℚ
  contribution : ℚ
  contributionFrequency : ContributionFrequency
  apr : ℚ
  compoundFrequency : CompoundFrequency
  years : ℚ
  months : ℚ
  timing : ContributionTiming
deriving DecidableEq

/-- Source type `ParseResult` (calc.ts lines 190-194). -/
structure ParseResult where
  isValid : Bool
  errors : ValidationErrors
  inputs? : Option CalcInputsV
deriving DecidableEq

/-- The finite value a field parses to; 0 for the classes the caller only
reaches behind an error check (mirrors `isNaN(x) ? 0 : x`). -/
def numValue : JSNum → ℚ
  | .val q => q
  | _ => 0

/-- Source value `monthsRaw` (calc.ts line 248): an empty months field counts as 0. -/
def monthsValue : JSNum → ℚ
  | .empty => 0
  | .val q => q
  | _ => 0

/-- Principal checks (calc.ts lines 201-208). -/
def checkPrincipal : JSNum → Option String
  | .empty => some "Enter a valid initial investment (0 or more)."
  | .nan => some "Enter a valid initial investment (0 or more)."
  | .ninf => some "Initial investment cannot be negative."
  | .inf => some "Value exceeds the maximum of £1,000,000,000."
  | .val q =>
    if q < 0 then some "Initial investment cannot be negative."
    else if q > 1000000000 then some "Value exceeds the maximum of £1,000,000,000."
    else none

/-- Contribution checks (calc.ts lines 211-218). -/
def checkContribution : JSNum → Option String
  | .empty => some "Enter a valid contribution amount (0 or more)."
  | .nan => some "Enter a valid contribution amount (0 or more)."
  | .ninf => some "Contribution cannot be negative."
  | .inf => some "Value exceeds the maximum of £1,000,000,000."
  | .val q =>
    if q < 0 then some "Contribution cannot be negative."
    else if q > 1000000000 then some "Value exceeds the maximum of £1,000,000,000."
    else none

/-- APR checks, on the percentage as typed (calc.ts lines 226-233). -/
def checkApr : JSNum → Option String
  | .empty => some "Enter a valid interest rate (e.g. 5 for 5%)."
  | .nan => some "Enter a valid interest rate (e.g. 5 for 5%)."
  | .ninf => some "Interest rate cannot be negative."
  | .inf => some "Interest rate must be 999% or less."
  | .val q =>
    if q < 0 then some "Interest rate cannot be negative."
    else if q > 999 then some "Interest rate must be 999% or less."
    else none

/-- Years checks (calc.ts lines 236-245): empty, non-finite and non-integer
values share one message; then a negativity check. -/
def checkYears : JSNum → Option String
  | .empty => some "Enter a whole number of years."
  | .nan => some "Enter a whole number of years."
  | .inf => some "Enter a whole number of years."
  | .ninf => some "Enter a whole number of years."
  | .val q =>
    if q.den ≠ 1 then some "Enter a whole number of years."
    else if q < 0 then some "Years cannot be negative."
    else none

/-- Months checks (calc.ts lines 248-256): an empty field becomes 0 and
passes; otherwise the value must be a finite integer in [0, 11]. -/
def checkMonths : JSNum → Option String
  | .empty => none
  | .nan => some "Additional months must be 0–11."
  | .inf => some "Additional months must be 0–11."
  | .ninf => some "Additional months must be 0–11."
  | .val q =>
    if q.den ≠ 1 then some "Additional months must be 0–11."
    else if q < 0 then some "Additional months must be 0–11."
    else if q > 11 then some "Additional months must be 0–11."
    else none

/-- The both-zero check folded into the principal error slot
(calc.ts lines 220-223). -/
def principalCombinedError (principal contribution : JSNum) : Option String :=
  if checkPrincipal principal = none ∧ checkContribution contribution = none
      ∧ principal = JSNum.val 0 ∧ contribution = JSNum.val 0 then
    some "At least one of initial investment or regular contribution must be greater than zero."
  else checkPrincipal principal

/-- Duration check (calc.ts lines 259-266), only run when years and months
are individually fine. -/
def durationError (years months : JSNum) : Option String :=
  if checkYears years = none ∧ checkMonths months = none then
    if numValue years * 12 + monthsValue months = 0 then
      some "Duration must be at least 1 month."
    else if numValue years * 12 + monthsValue months > 720 then
      some "Maximum duration is 60 years (720 months)."
    else none
  else none

/-- All six error slots (calc.ts lines 198-266). -/
def buildErrors (form : FormState) : ValidationErrors :=
  { principal := principalCombinedError form.principal form.contribution
    contribution := checkContribution form.contribution
    apr := checkApr form.apr
    years := checkYears form.years
    months := checkMonths form.months
    duration := durationError form.years form.months }

/-- Source function `parseAndValidate` (calc.ts lines 197-286). -/
def parseAndValidate (form : FormState) : ParseResult :=
  let errors := buildErrors form
  if errors.hasAny then ⟨false, errors, none⟩
  else
    ⟨true, {}, some
      { principal := numValue form.principal
        contribution := numValue form.contribution
        contributionFrequency := form.contributionFrequency
        apr := numValue form.apr / 100
        compoundFrequency := form.compoundFrequency
        years := numValue form.years
        months := monthsValue form.months
        timing := form.timing }⟩

theorem hasAny_eq_false_iff (e : ValidationErrors) :
    e.hasAny = false ↔ e.principal = none ∧ e.contribution = none ∧ e.apr = none
      ∧ e.years = none ∧ e.months = none ∧ e.duration = none := by
  rcases e with ⟨p, c, a, y, m, d⟩
  simp only [ValidationErrors.hasAny, Bool.or_eq_false_iff]
  cases p <;> cases c <;> cases a <;> cases y <;> cases m <;> cases d <;> simp

theorem checkPrincipal_eq_none {x : JSNum} (h : checkPrincipal x = none) :
    ∃ q : ℚ, x = .val q ∧ 0 ≤ q ∧ q ≤ 1000000000 := by
  cases x with
  | val q =>
    simp only [checkPrincipal] at h
    split_ifs at h with h1 h2
    exact ⟨q, rfl, le_of_not_lt h1, le_of_not_lt h2⟩
  | empty => simp [checkPrincipal] at h
  | nan => simp [checkPrincipal] at h
  | inf => simp [checkPrincipal] at h
  | ninf => simp [checkPrincipal] at h

theorem checkContribution_eq_none {x : JSNum} (h : checkContribution x = none) :
    ∃ q : ℚ, x = .val q ∧ 0 ≤ q ∧ q ≤ 1000000000 := by
  cases x with
  | val q =>
    simp only [checkContribution] at h
    split_ifs at h with h1 h2
    exact ⟨q, rfl, le_of_not_lt h1, le_of_not_lt h2⟩
  | empty => simp [checkContribution] at h
  | nan => simp [checkContribution] at h
  | inf => simp [checkContribution] at h
  | ninf => simp [checkContribution] at h

theorem checkApr_eq_none {x : JSNum} (h : checkApr x = none) :
    ∃ q : ℚ, x = .val q ∧ 0 ≤ q ∧ q ≤ 999 := by
  cases x with
  | val q =>
    simp only [checkApr] at h
    split_ifs at h with h1 h2
    exact ⟨q, rfl, le_of_not_lt h1, le_of_not_lt h2⟩
  | empty => simp [checkApr] at h
  | nan => simp [checkApr] at h
  | inf => simp [checkApr] at h
  | ninf => simp [checkApr] at h

theorem checkYears_eq_none {x : JSNum} (h : checkYears x = none) :
    (numValue x).den = 1 ∧ 0 ≤ numValue x := by
  cases x with
  | val q =>
    simp only [checkYears] at h
    split_ifs at h with h1 h2
    exact ⟨not_ne_iff.mp h1, le_of_not_lt h2⟩
  | empty => simp [checkYears] at h
  | nan => simp [checkYears] at h
  | inf => simp [checkYears] at h
  | ninf => simp [checkYears] at h

theorem checkMonths_eq_none {x : JSNum} (h : checkMonths x = none) :
    (monthsValue x).den = 1 ∧ 0 ≤ monthsValue x ∧ monthsValue x ≤ 11 := by
  cases x with
  | val q =>
    simp only [checkMonths] at h
    split_ifs at h with h1 h2 h3
    exact ⟨not_ne_iff.mp h1, le_of_not_lt h2, le_of_not_lt h3⟩
  | empty => refine ⟨rfl, ?_, ?_⟩ <;> norm_num [monthsValue]
  | nan => simp [checkMonths] at h
  | inf => simp [checkMonths] at h
  | ninf => simp [checkMonths] at h

/-- An integer-valued rational that is non-negative, non-zero and at most 720
lies in [1, 720]. -/
theorem duration_bounds {y m : ℚ} (hyd : y.den = 1) (hy0 : 0 ≤ y)
    (hmd : m.den = 1) (hm0 : 0 ≤ m) (hne : y * 12 + m ≠ 0)
    (hle : ¬(y * 12 + m > 720)) :
    1 ≤ y * 12 + m ∧ y * 12 + m ≤ 720 := by
  have hy : ((y.num : ℚ)) = y := Rat.coe_int_num_of_den_eq_one hyd
  have hm : ((m.num : ℚ)) = m := Rat.coe_int_num_of_den_eq_one hmd
  push_neg at hle
  have hsum : y * 12 + m = ((y.num * 12 + m.num : ℤ) : ℚ) := by
    push_cast
    rw [hy, hm]
  rw [hsum] at hne hle ⊢
  have hy0' : 0 ≤ y.num := by rw [← hy] at hy0; exact_mod_cast hy0
  have hm0' : 0 ≤ m.num := by rw [← hm] at hm0; exact_mod_cast hm0
  have hne' : y.num * 12 + m.num ≠ 0 := by
    intro h0; exact hne (by exact_mod_cast congrArg (fun z : ℤ => (z : ℚ)) h0)
  have hle' : y.num * 12 + m.num ≤ 720 := by exact_mod_cast hle
  constructor
  · exact_mod_cast (by omega : 1 ≤ y.num * 12 + m.num)
  · exact_mod_cast hle'

/-- C9: whenever `parseAndValidate` reports `isValid = true`, the inputs it
returns satisfy the validation contract (bounds on principal, contribution
and apr, at least one of principal/contribution positive, integral years and
months with months in [0,11] and total months in [1,720]); otherwise it
reports `isValid = false` with at least one error set and no inputs. -/
theorem parseAndValidate_contract (form : FormState) :
    ((parseAndValidate form).isValid = true →
      ∃ inp : CalcInputsV, (parseAndValidate form).inputs? = some inp
        ∧ 0 ≤ inp.principal ∧ inp.principal ≤ 1000000000
        ∧ 0 ≤ inp.contribution ∧ inp.contribution ≤ 1000000000
        ∧ (0 < inp.principal ∨ 0 < inp.contribution)
        ∧ 0 ≤ inp.apr ∧ inp.apr ≤ 999 / 100
        ∧ inp.years.den = 1 ∧ 0 ≤ inp.years
        ∧ inp.months.den = 1 ∧ 0 ≤ inp.months ∧ inp.months ≤ 11
        ∧ 1 ≤ inp.years * 12 + inp.months ∧ inp.years * 12 + inp.months ≤ 720)
    ∧ ((parseAndValidate form).isValid = false →
      (parseAndValidate form).errors.hasAny = true
        ∧ (parseAndValidate form).inputs? = none) := by
  by_cases hA : (buildErrors form).hasAny
  · have hres : parseAndValidate form = ⟨false, buildErrors form, none⟩ := by
      simp [parseAndValidate, hA]
    rw [hres]
    exact ⟨fun hv => by simp at hv, fun _ => ⟨hA, rfl⟩⟩
  · have hAf : (buildErrors form).hasAny = false := by simpa using hA
    have hres : parseAndValidate form = ⟨true, {}, some
        { principal := numValue form.principal
          contribution := numValue form.contribution
          contributionFrequency := form.contributionFrequency
          apr := numValue form.apr / 100
          compoundFrequency := form.compoundFrequency
          years := numValue form.years
          months := monthsValue form.months
          timing := form.timing }⟩ := by
      simp [parseAndValidate, hAf]
    obtain ⟨hp, hc, ha, hy, hm, hd⟩ := (hasAny_eq_false_iff _).mp hAf
    simp only [buildErrors] at hp hc ha hy hm hd
    -- principal slot: the combined check off means the plain check passed and
    -- not both fields are the literal zero
    have hp' : checkPrincipal form.principal = none ∧
        ¬(checkPrincipal form.principal = none
          ∧ checkContribution form.contribution = none
          ∧ form.principal = JSNum.val 0 ∧ form.contribution = JSNum.val 0) := by
      by_cases hcond : checkPrincipal form.principal = none
          ∧ checkContribution form.contribution = none
          ∧ form.principal = JSNum.val 0 ∧ form.contribution = JSNum.val 0
      · rw [principalCombinedError, if_pos hcond] at hp
        simp at hp
      · rw [principalCombinedError, if_neg hcond] at hp
        exact ⟨hp, hcond⟩
    obtain ⟨qp, hqp, hqp0, hqp9⟩ := checkPrincipal_eq_none hp'.1
    obtain ⟨qc, hqc, hqc0, hqc9⟩ := checkContribution_eq_none hc
    obtain ⟨qa, hqa, hqa0, hqa9⟩ := checkApr_eq_none ha
    obtain ⟨hyden, hy0⟩ := checkYears_eq_none hy
    obtain ⟨hmden, hm0, hm11⟩ := checkMonths_eq_none hm
    have hdur : numValue form.years * 12 + monthsValue form.months ≠ 0 ∧
        ¬(numValue form.years * 12 + monthsValue form.months > 720) := by
      rw [durationError, if_pos ⟨hy, hm⟩] at hd
      split_ifs at hd with h1 h2
      exact ⟨h1, h2⟩
    obtain ⟨htm1, htm720⟩ := duration_bounds hyden hy0 hmden hm0 hdur.1 hdur.2
    rw [hres]
    constructor
    · intro _
      refine ⟨_, rfl, ?_, ?_, ?_, ?_, ?_, ?_, ?_, hyden, hy0, hmden, hm0, hm11,
        htm1, htm720⟩
      · simpa [hqp, numValue] using hqp0
      · simpa [hqp, numValue] using hqp9
      · simpa [hqc, numValue] using hqc0
      · simpa [hqc, numValue] using hqc9
      · -- not both zero
        have hnot := hp'.2
        rw [hqp, hqc] at hnot
        have hcp : checkPrincipal (JSNum.val qp) = none := by
          rw [← hqp]; exact hp'.1
        have hcc : checkContribution (JSNum.val qc) = none := by
          rw [← hqc]; exact hc
        simp only [hcp, hcc, true_and, JSNum.val.injEq] at hnot
        rcases not_and_or.mp hnot with hz | hz
        · left
          simpa [hqp, numValue] using lt_of_le_of_ne hqp0 (Ne.symm hz)
        · right
          simpa [hqc, numValue] using lt_of_le_of_ne hqc0 (Ne.symm hz)
      · have : (0 : ℚ) ≤ qa / 100 := by positivity
        simpa [hqa, numValue] using this
      · have : qa / 100 ≤ 999 / 100 :=
          (div_le_div_iff_of_pos_right (by norm_num : (0 : ℚ) < 100)).mpr hqa9
        simpa [hqa, numValue] using this
    · intro hv
      simp at hv

/-- A concrete valid form for the witness. -/
def sampleForm : FormState :=
  { principal := .val 10000, contribution := .val 200,
    contributionFrequency := .monthly, apr := .val 5,
    compoundFrequency := .monthly, years := .val 10, months := .val 0,
    timing := .endT }

/-- Concrete instance of C9. -/
theorem parseAndValidate_contract_witness :
    (parseAndValidate sampleForm).isValid = true ∧
      ∃ inp : CalcInputsV, (parseAndValidate sampleForm).inputs? = some inp
        ∧ 0 ≤ inp.principal ∧ inp.principal ≤ 1000000000
        ∧ 0 ≤ inp.contribution ∧ inp.contribution ≤ 1000000000
        ∧ (0 < inp.principal ∨ 0 < inp.contribution)
        ∧ 0 ≤ inp.apr ∧ inp.apr ≤ 999 / 100
        ∧ inp.years.den = 1 ∧ 0 ≤ inp.years
        ∧ inp.months.den = 1 ∧ 0 ≤ inp.months ∧ inp.months ≤ 11
        ∧ 1 ≤ inp.years * 12 + inp.months
        ∧ inp.years * 12 + inp.months ≤ 720 := by
  have hv : (parseAndValidate sampleForm).isValid = true := by
    norm_num [parseAndValidate, buildErrors, principalCombinedError, durationError,
      checkPrincipal, checkContribution, checkApr, checkYears, checkMonths,
      numValue, monthsValue, ValidationErrors.hasAny, sampleForm]
  exact ⟨hv, (parseAndValidate_contract sampleForm).1 hv⟩

end CompoundToolkit
